import Mathlib

/-!
Verification of the automatic auction-closing subsystem of
`vinicius-maker/abertura-fechamento-leilao`
(file `internal/infra/database/auction/create_auction.go`).

The Go code is shallowly embedded below:
  * `time.Time` / `time.Duration` values are `Int` nanoseconds,
  * the Mongo collection is a `List Auction` (documents keyed by `_id`),
  * the `AuctionsAutoClose` map (`map[string]auction_entity.AuctionStatus`,
    whose values are never read) is its key set, a duplicate-free
    `List String`,
  * a fallible external call (Mongo insert / find / update) is given its
    outcome as an explicit parameter,
  * each goroutine's interaction with the shared state is modelled by an
    explicit step; blocking forever on `sync.Mutex.Lock` is the distinguished
    outcome `RunResult.stuck`.
-/

namespace AuctionGo

/-- Modelled from the spec: the auction status enum of the entity package
`auction_entity` (its source file is not among the provided sources).
The spec describes "status (enum: Open/Active, Completed)"; the scheduler
code uses the constants `auction_entity.Active` and
`auction_entity.Completed`. -/
inductive AuctionStatus where
  | Active
  | Completed
deriving DecidableEq, Repr

/-- An auction document, after `AuctionEntityMongo` in `create_auction.go`
(lines 18-26): id, product data, status and a creation timestamp.
`condition` (`ProductCondition`) is an opaque enum, kept as a `Nat`;
`timestamp` is in nanoseconds since the epoch. -/
structure Auction where
  id : String
  productName : String
  category : String
  description : String
  condition : Nat
  status : AuctionStatus
  timestamp : Int
deriving DecidableEq, Repr

/-- A Go `error` value; only its presence matters to the embedded code. -/
abbrev GoError := String

/-- Status of the document with the given `_id` in the collection, or `none`
when no document matches. The collection keys documents by `_id`, so the
first match is the match. -/
def statusOf : List Auction → String → Option AuctionStatus
  | [], _ => none
  | a :: rest, id => if a.id = id then some a.status else statusOf rest id

/-- Mongo `UpdateOne` with filter `{_id: id}`, update `{$set: {status: st}}`
and `SetUpsert(false)` (lines 141-149): the first matching document has its
status replaced; when nothing matches, nothing is modified and nothing is
inserted. -/
def updateFirst : List Auction → String → AuctionStatus → List Auction
  | [], _, _ => []
  | a :: rest, id, st =>
    if a.id = id then { a with status := st } :: rest
    else a :: updateFirst rest id st

/-- The `closeAuction` method (lines 140-158). `updateErr` is the outcome of
the `UpdateOne` round trip (`some e` when the driver call fails). Returns the
collection after the call, the log lines emitted, and the returned error.
On driver failure the error is returned without retry; on success the
"closed automatically" line is logged (line 155) whether or not a document
matched. -/
def closeAuction (updateErr : Option GoError) (store : List Auction)
    (a : Auction) : List Auction × List String × Option GoError :=
  match updateErr with
  | some e => (store, [], some e)
  | none =>
      (updateFirst store a.id AuctionStatus.Completed,
       ["Auction " ++ a.id ++ " closed automatically"],
       none)

/-- The default interval `time.Minute * 5` (line 129), in nanoseconds. -/
def defaultAuctionInterval : Int := 5 * 60 * 1000000000

/-- The warning logged when `AUCTION_INTERVAL` fails to parse (line 128). -/
def intervalWarning : String :=
  "AUCTION_INTERVAL not set correctly; defaulting to 5 minutes."

/-- The `getAuctionInterval` function (lines 124-133). `parseDuration`
abstracts Go's `time.ParseDuration` (standard library, external to this
repository): `some d` when `env` parses under the duration grammar, `none`
when it is malformed or empty (Go's `os.Getenv` yields `""` for an absent
variable, which `time.ParseDuration` rejects). Returns the interval and the
log lines emitted; the function is total and returns no error. -/
def getAuctionInterval (parseDuration : String → Option Int)
    (env : String) : Int × List String :=
  match parseDuration env with
  | some d => (d, [])
  | none => (defaultAuctionInterval, [intervalWarning])

/-- Go's `time.Until(t)`: `t - now`. -/
def timeUntil (t now : Int) : Int := t - now

/-- The `calculateAuctionEndTime` function (lines 135-138):
`time.Until(timestamp.Add(interval))`, where `interval` is the value
obtained from `getAuctionInterval`. May be zero or negative. -/
def calculateAuctionEndTime (interval now : Int) (a : Auction) : Int :=
  timeUntil (a.timestamp + interval) now

/-- The reserve step of `autoClose` (lines 89-97), executed under
`CloseMutex`: look the id up in `AuctionsAutoClose`; if present, skip
(return `false`, map unchanged); if absent, insert it (the stored value
`auction_entity.Active` is never read, so only the key matters) and return
`true`. -/
def tryReserve (registry : List String) (id : String) : Bool × List String :=
  if id ∈ registry then (false, registry) else (true, id :: registry)

/-- Go `delete(ar.AuctionsAutoClose, id)` (line 116) on the key set of the
map: the key is removed entirely. -/
def mapDelete (registry : List String) (id : String) : List String :=
  registry.filter (fun x => x != id)

/-- State threaded through one scheduling pass: the collection, the key set
of `AuctionsAutoClose`, the deferred tasks spawned so far (auction id and
timer length, lines 99-101), and the log lines emitted. -/
structure PassState where
  store : List Auction
  registry : List String
  spawned : List (String × Int)
  logs : List String
deriving DecidableEq, Repr

/-- Outcome of running a goroutine's code: normal return with a value,
return of an error, or blocking forever on `sync.Mutex.Lock` (`stuck`).
The carried state is the shared state at the moment of return or of the
blocking call. -/
inductive RunResult (σ : Type) where
  | ok : σ → RunResult σ
  | err : GoError → σ → RunResult σ
  | stuck : σ → RunResult σ
deriving DecidableEq, Repr

/-- The carried shared state of a `RunResult`. -/
def RunResult.state {σ : Type} : RunResult σ → σ
  | RunResult.ok s => s
  | RunResult.err _ s => s
  | RunResult.stuck s => s

/-- The loop of `autoClose` over the open auctions (lines 78-119).
`fault id` is the outcome of the `UpdateOne` round trip for a synchronous
close of that id; `outerHeld` records whether the calling goroutine already
holds `CloseMutex` when the loop runs (it does: `CreateAuction` locks it on
line 61 before calling `autoClose`). Per auction:
  * remaining time ≤ 0: close synchronously via `closeAuction`; an error is
    logged ("Failed to close auction ... immediately", line 84) and the loop
    continues (line 86); the registry is untouched;
  * remaining time > 0: `ar.CloseMutex.Lock()` (line 89). `sync.Mutex` is
    not reentrant, so when the goroutine already holds the mutex this call
    blocks forever: `stuck`. Otherwise the reserve step runs and, on success,
    a deferred task armed with the remaining time is spawned after the
    unlock (lines 99-118). -/
def autoCloseLoop (fault : String → Option GoError) (interval now : Int)
    (outerHeld : Bool) : List Auction → PassState → RunResult PassState
  | [], s => RunResult.ok s
  | a :: rest, s =>
    if calculateAuctionEndTime interval now a ≤ 0 then
      let r := closeAuction (fault a.id) s.store a
      let errLogs : List String :=
        match r.2.2 with
        | some _ => ["Failed to close auction " ++ a.id ++ " immediately"]
        | none => []
      autoCloseLoop fault interval now outerHeld rest
        { s with store := r.1, logs := s.logs ++ r.2.1 ++ errLogs }
    else if outerHeld then
      RunResult.stuck s
    else
      let r := tryReserve s.registry a.id
      if r.1 then
        autoCloseLoop fault interval now outerHeld rest
          { s with registry := r.2,
                   spawned :=
                     s.spawned ++ [(a.id, calculateAuctionEndTime interval now a)] }
      else
        autoCloseLoop fault interval now outerHeld rest s

/-- The `autoClose` method (lines 72-122). `listing` is the outcome of
`ar.FindOpenAuctions(ctx)` (defined elsewhere in the repository; the spec
describes it as listing the currently Open auctions, possibly failing): a
listing failure is returned to the caller at once (lines 74-76); otherwise
the loop runs over the listed auctions. -/
def autoClose (listing : Except GoError (List Auction))
    (fault : String → Option GoError) (interval now : Int) (outerHeld : Bool)
    (store : List Auction) (registry : List String) : RunResult PassState :=
  match listing with
  | Except.error e => RunResult.err e (PassState.mk store registry [] [])
  | Except.ok auctions =>
      autoCloseLoop fault interval now outerHeld auctions
        (PassState.mk store registry [] [])

/-- Result of `CreateAuction` as seen by its caller. -/
inductive CreateResult where
  | ok
  | insertErr
  | autoCloseErr
  | stuck
deriving DecidableEq, Repr

/-- The `CreateAuction` method (lines 42-70). `insertFails` is the outcome
of `InsertOne`: on failure an internal error is returned at once (lines
56-59). Otherwise the auction is inserted, `CloseMutex` is locked (line 61)
and `autoClose` runs with the mutex held by this goroutine; a listing error
surfaces as "Failed to initiate auto-close process" (line 66). -/
def CreateAuction (insertFails : Bool)
    (listing : Except GoError (List Auction))
    (fault : String → Option GoError) (interval now : Int)
    (store : List Auction) (registry : List String) (a : Auction) :
    CreateResult × PassState :=
  if insertFails then
    (CreateResult.insertErr,
     PassState.mk store registry [] ["Error trying to insert auction"])
  else
    match autoClose listing fault interval now true (store ++ [a]) registry with
    | RunResult.ok s => (CreateResult.ok, s)
    | RunResult.err _ s => (CreateResult.autoCloseErr, s)
    | RunResult.stuck s => (CreateResult.stuck, s)

/-- Which arm of the `select` in the deferred goroutine (lines 104-117)
fires first: the context's cancellation channel or the timer. -/
inductive RaceOutcome where
  | cancelled
  | fired
deriving DecidableEq, Repr

/-- The body of the deferred close goroutine (lines 101-118) once its race
is decided. `fault` is the outcome of the `UpdateOne` round trip of its
`closeAuction` call. Returns the collection, the registry key set and the
log lines emitted by the goroutine.
  * cancellation (lines 105-107): log and return; no store access, registry
    entry left in place;
  * timer fired (lines 108-116): under `CloseMutex`, call `closeAuction`,
    log a failure ("Failed to close auction ... automatically", line 114),
    then delete the registry entry unconditionally (line 116). -/
def deferredTask (fault : Option GoError) (outcome : RaceOutcome)
    (store : List Auction) (registry : List String) (a : Auction) :
    List Auction × List String × List String :=
  match outcome with
  | RaceOutcome.cancelled =>
      (store, registry,
       ["Auction closing for " ++ a.id ++ " cancelled due to context cancellation"])
  | RaceOutcome.fired =>
      let r := closeAuction fault store a
      let errLogs : List String :=
        match r.2.2 with
        | some _ => ["Failed to close auction " ++ a.id ++ " automatically"]
        | none => []
      (r.1, mapDelete registry a.id, r.2.1 ++ errLogs)

/-- Successes among `n` serialized executions of the reserve step (lines
89-97) for the same id: `CloseMutex` makes the check-then-insert atomic, so
any set of concurrent reservers executes in some sequential order, which
this function folds. -/
def reserveSuccesses (registry : List String) (id : String) : Nat → Nat
  | 0 => 0
  | Nat.succ n =>
      (if (tryReserve registry id).1 then 1 else 0) +
        reserveSuccesses (tryReserve registry id).2 id n

/-- Shared bookkeeping state of the subsystem: the key set of
`AuctionsAutoClose` and the multiset of live deferred goroutines (as the
list of the auction ids they serve). -/
structure SchedState where
  registry : List String
  live : List String
deriving DecidableEq, Repr

/-- The initial state: `NewAuctionRepository` (lines 34-40) starts with an
empty map and no goroutines. -/
def initSched : SchedState := SchedState.mk [] []

/-- The atomic transitions of the shared bookkeeping state, each one an
exclusive section of `create_auction.go`:
  * `reserveSpawn` (lines 89-101): a pass finds the id absent, inserts it
    and spawns a deferred goroutine for it (a pass that finds the id
    present changes nothing, so it needs no transition);
  * `fire` (lines 108-117): a live goroutine's timer fires; under the mutex
    it closes the auction and deletes the registry entry, then exits;
  * `cancel` (lines 104-107): a live goroutine sees the context cancelled
    and exits, leaving the registry entry in place. -/
inductive SchedStep : SchedState → SchedState → Prop where
  | reserveSpawn (id : String) (s : SchedState) (h : id ∉ s.registry) :
      SchedStep s (SchedState.mk (id :: s.registry) (id :: s.live))
  | fire (id : String) (s : SchedState) (h : id ∈ s.live) :
      SchedStep s (SchedState.mk (mapDelete s.registry id) (s.live.erase id))
  | cancel (id : String) (s : SchedState) (h : id ∈ s.live) :
      SchedStep s (SchedState.mk s.registry (s.live.erase id))

/-- Invariant tying live goroutines to registry entries: every id has at
most as many live deferred goroutines as registry entries, and at most one
registry entry. -/
def SchedInv (s : SchedState) : Prop :=
  ∀ id : String, s.live.count id ≤ s.registry.count id ∧ s.registry.count id ≤ 1

lemma mapDelete_count_self (registry : List String) (id : String) :
    (mapDelete registry id).count id = 0 := by
  simp [mapDelete, List.count_eq_zero, List.mem_filter]

lemma mapDelete_count_other (registry : List String) (id q : String)
    (h : q ≠ id) : (mapDelete registry id).count q = registry.count q := by
  induction registry with
  | nil => rfl
  | cons b rest ih =>
      by_cases hb : b = id
      · subst hb
        simp [mapDelete, List.filter_cons, List.count_cons, h, ih]
      · simp only [mapDelete, List.filter_cons] at ih ⊢
        simp [hb, List.count_cons, ih]

lemma mapDelete_not_mem (registry : List String) (id : String) :
    id ∉ mapDelete registry id := by
  simp [mapDelete, List.mem_filter]

lemma schedInv_init : SchedInv initSched := by
  intro id
  simp [initSched]

lemma schedInv_step {s t : SchedState} (hs : SchedInv s)
    (h : SchedStep s t) : SchedInv t := by
  cases h with
  | reserveSpawn id s hid =>
      intro q
      by_cases hq : q = id
      · subst hq
        have hr : s.registry.count q = 0 := List.count_eq_zero.mpr hid
        have hl : s.live.count q = 0 :=
          Nat.le_zero.mp (hr ▸ (hs q).1)
        simp [List.count_cons, hr, hl]
      · have h2 := hs q
        simp [List.count_cons, hq]
        exact h2
  | fire id s hid =>
      intro q
      by_cases hq : q = id
      · subst hq
        have h1 := (hs q).1
        have h2 := (hs q).2
        constructor
        · rw [mapDelete_count_self, List.count_erase_self]
          omega
        · rw [mapDelete_count_self]
          omega
      · rw [mapDelete_count_other _ _ _ hq, List.count_erase_of_ne hq]
        exact hs q
  | cancel id s hid =>
      intro q
      by_cases hq : q = id
      · subst hq
        refine ⟨?_, (hs q).2⟩
        rw [List.count_erase_self]
        exact le_trans (Nat.sub_le _ _) (hs q).1
      · rw [List.count_erase_of_ne hq]
        exact hs q

lemma schedInv_reachable {s : SchedState}
    (h : Relation.ReflTransGen SchedStep initSched s) : SchedInv s := by
  induction h with
  | refl => exact schedInv_init
  | tail _ hstep ih => exact schedInv_step ih hstep

lemma reserveSuccesses_of_mem (id : String) :
    ∀ (n : Nat) (registry : List String), id ∈ registry →
      reserveSuccesses registry id n = 0 := by
  intro n
  induction n with
  | zero => intro registry _; rfl
  | succ n ih =>
      intro registry h
      simp only [reserveSuccesses, tryReserve, if_pos h]
      simpa using ih registry h

lemma updateFirst_idem (store : List Auction) (id : String)
    (st : AuctionStatus) :
    updateFirst (updateFirst store id st) id st = updateFirst store id st := by
  induction store with
  | nil => rfl
  | cons a rest ih =>
      by_cases h : a.id = id
      · simp [updateFirst, h]
      · simp [updateFirst, h, ih]

lemma statusOf_updateFirst_self (store : List Auction) (id : String)
    (st : AuctionStatus) (h : statusOf store id ≠ none) :
    statusOf (updateFirst store id st) id = some st := by
  induction store with
  | nil => simp [statusOf] at h
  | cons a rest ih =>
      by_cases ha : a.id = id
      · simp [updateFirst, statusOf, ha]
      · simp only [statusOf, if_neg ha] at h
        simp [updateFirst, statusOf, ha, ih h]

lemma updateFirst_missing (store : List Auction) (id : String)
    (st : AuctionStatus) (h : statusOf store id = none) :
    updateFirst store id st = store := by
  induction store with
  | nil => rfl
  | cons a rest ih =>
      by_cases ha : a.id = id
      · simp [statusOf, ha] at h
      · simp only [statusOf, if_neg ha] at h
        simp [updateFirst, ha, ih h]

lemma autoCloseLoop_ne_err (fault : String → Option GoError)
    (interval now : Int) (outerHeld : Bool) :
    ∀ (l : List Auction) (s : PassState) (e : GoError) (s' : PassState),
      autoCloseLoop fault interval now outerHeld l s ≠ RunResult.err e s' := by
  intro l
  induction l with
  | nil =>
      intro s e s' h
      simp [autoCloseLoop] at h
  | cons a rest ih =>
      intro s e s' h
      simp only [autoCloseLoop] at h
      split at h
      · exact ih _ e s' h
      · split at h
        · simp at h
        · split at h
          · exact ih _ e s' h
          · exact ih _ e s' h

/-- A sample auction admitted just now (remaining time is the full
configured interval, strictly positive). -/
def sampleOpen : Auction :=
  Auction.mk "a1" "mouse" "peripherals" "mouse gamer rgb" 0
    AuctionStatus.Active 0

/-- A sample auction created one full interval ago: at `now = 0` with the
default interval its remaining time is exactly 0, so it is overdue. -/
def expiredOpen : Auction :=
  Auction.mk "b1" "keyboard" "peripherals" "mechanical keyboard" 0
    AuctionStatus.Active (-defaultAuctionInterval)

lemma createAuction_ok_listing_not_autoCloseErr
    (fault : String → Option GoError) (interval now : Int)
    (store : List Auction) (registry : List String) (a : Auction)
    (l : List Auction) :
    (CreateAuction false (Except.ok l) fault interval now store registry a).1
      ≠ CreateResult.autoCloseErr := by
  rcases hr : autoCloseLoop fault interval now true l
      (PassState.mk (store ++ [a]) registry [] []) with s | ⟨e, s⟩ | s
  · simp [CreateAuction, autoClose, hr]
  · exact absurd hr (autoCloseLoop_ne_err fault interval now true l _ e s)
  · simp [CreateAuction, autoClose, hr]

/-- C1: for every auction id, at most one registry entry and at most one
live deferred close task exist at any time, across any number of sequential
or concurrent scheduling passes (first conjunct: in every state reachable
from the initial state under the atomic transitions of
`create_auction.go`), and the reserve step is atomic inside `CloseMutex`,
so of any number of serialized reservers of the same id exactly one
succeeds and all others skip (second conjunct). -/
theorem c1_at_most_one_entry_and_task :
    (∀ s : SchedState, Relation.ReflTransGen SchedStep initSched s →
      ∀ id : String, s.registry.count id ≤ 1 ∧ s.live.count id ≤ 1) ∧
    (∀ (registry : List String) (id : String) (n : Nat),
      id ∉ registry → 0 < n → reserveSuccesses registry id n = 1) := by
  constructor
  · intro s h id
    have hi := schedInv_reachable h id
    exact ⟨hi.2, le_trans hi.1 hi.2⟩
  · intro registry id n hmem hn
    cases n with
    | zero => exact absurd hn (lt_irrefl 0)
    | succ m =>
        simp only [reserveSuccesses]
        rw [show tryReserve registry id = (true, id :: registry) from by
          simp [tryReserve, hmem]]
        simp [reserveSuccesses_of_mem id m (id :: registry)
          (List.mem_cons_self id registry)]

/-- Witness for C1 at the state reached by one reserve-and-spawn step for
id "a1", and at three serialized reservers of "a1" on an empty registry. -/
theorem c1_at_most_one_entry_and_task_witness :
    ((SchedState.mk ["a1"] ["a1"]).registry.count "a1" ≤ 1 ∧
     (SchedState.mk ["a1"] ["a1"]).live.count "a1" ≤ 1) ∧
    reserveSuccesses [] "a1" 3 = 1 :=
  ⟨c1_at_most_one_entry_and_task.1 (SchedState.mk ["a1"] ["a1"])
      (Relation.ReflTransGen.single
        (SchedStep.reserveSpawn "a1" initSched (by simp [initSched]))) "a1",
   c1_at_most_one_entry_and_task.2 [] "a1" 3 (by simp) (by decide)⟩

/-- C2 (failing evaluation): the claim says `CreateAuction` terminates and
returns success whenever the scan and immediate-close pass complete, also
when the scan finds an open auction with positive remaining time. In the
code `CreateAuction` locks `CloseMutex` (line 61) and `autoClose` re-locks
the same non-reentrant mutex (line 89) as soon as it reaches an auction
with positive remaining time, so the call blocks forever: here, admitting
`sampleOpen` (remaining time = the full default interval > 0) gets stuck
and spawns no deferred task. -/
theorem c2_admission_deadlocks_on_positive_remaining :
    (CreateAuction false (Except.ok [sampleOpen]) (fun _ => none)
        defaultAuctionInterval 0 [] [] sampleOpen).1 = CreateResult.stuck ∧
    (CreateAuction false (Except.ok [sampleOpen]) (fun _ => none)
        defaultAuctionInterval 0 [] [] sampleOpen).2.spawned = [] ∧
    (∀ (rest : List Auction) (s : PassState),
      autoCloseLoop (fun _ => none) defaultAuctionInterval 0 true
        (sampleOpen :: rest) s = RunResult.stuck s) := by
  refine ⟨rfl, rfl, ?_⟩
  intro rest s
  rfl

/-- C3 (failing evaluation): the claim says every open auction whose
remaining time is ≤ 0 at scan time is closed synchronously within that same
pass. When the listing is `[sampleOpen, expiredOpen]` (a positive-remaining
auction before an overdue one), the pass blocks forever at the mutex
re-lock on `sampleOpen` (line 89) and never reaches `expiredOpen`, which
stays Active in the store with no close issued. -/
theorem c3_overdue_auction_missed_by_stuck_pass :
    autoClose (Except.ok [sampleOpen, expiredOpen]) (fun _ => none)
        defaultAuctionInterval 0 true [sampleOpen, expiredOpen] []
      = RunResult.stuck
          (PassState.mk [sampleOpen, expiredOpen] [] [] []) ∧
    statusOf [sampleOpen, expiredOpen] "b1" = some AuctionStatus.Active := by
  exact ⟨rfl, rfl⟩

/-- C4: if the process-wide cancellation signal fires before the timer, the
deferred task exits without invoking the close operation — the collection
is unchanged, so every auction's status (in particular the Open status of
its own auction) is unchanged and no status update is issued — and without
removing its registry entry. -/
theorem c4_cancellation_preserves_state :
    ∀ (fault : Option GoError) (store : List Auction)
      (registry : List String) (a : Auction) (q : String),
      (deferredTask fault RaceOutcome.cancelled store registry a).1 = store ∧
      (deferredTask fault RaceOutcome.cancelled store registry a).2.1
        = registry ∧
      statusOf (deferredTask fault RaceOutcome.cancelled store registry a).1 q
        = statusOf store q := by
  intro fault store registry a q
  exact ⟨rfl, rfl, rfl⟩

/-- C5: with the insert successful, the admission operation returns an
error exactly when listing the open auctions fails, for every close-fault
pattern — so individual immediate-close failures never surface (first
conjunct); and a deferred task's close failure is emitted only as a log
line, the task returning no error to anyone (second conjunct; its result
type carries no error component). -/
theorem c5_error_iff_listing_failure :
    (∀ (listing : Except GoError (List Auction))
       (fault : String → Option GoError) (interval now : Int)
       (store : List Auction) (registry : List String) (a : Auction),
      ((CreateAuction false listing fault interval now store registry a).1
          = CreateResult.autoCloseErr)
        ↔ (∃ e : GoError, listing = Except.error e)) ∧
    (∀ (e : GoError) (store : List Auction) (registry : List String)
       (b : Auction),
      (deferredTask (some e) RaceOutcome.fired store registry b).2.2
        = ["Failed to close auction " ++ b.id ++ " automatically"]) := by
  constructor
  · intro listing fault interval now store registry a
    cases listing with
    | error e =>
        constructor
        · intro _
          exact ⟨e, rfl⟩
        · intro _
          rfl
    | ok l =>
        constructor
        · intro h
          exact absurd h
            (createAuction_ok_listing_not_autoCloseErr fault interval now
              store registry a l)
        · rintro ⟨e, he⟩
          simp at he
  · intro e store registry b
    rfl

/-- Witness for C5 at a concrete failing listing and a concrete successful
listing with a failing immediate close. -/
theorem c5_error_iff_listing_failure_witness :
    ((CreateAuction false (Except.error "read failed") (fun _ => none)
        defaultAuctionInterval 0 [] [] sampleOpen).1
      = CreateResult.autoCloseErr) ∧
    ((CreateAuction false (Except.ok [expiredOpen]) (fun _ => some "down")
        defaultAuctionInterval 0 [expiredOpen] [] sampleOpen).1
      ≠ CreateResult.autoCloseErr) :=
  ⟨(c5_error_iff_listing_failure.1 (Except.error "read failed")
      (fun _ => none) defaultAuctionInterval 0 [] [] sampleOpen).mpr
      ⟨"read failed", rfl⟩,
   fun h =>
     absurd ((c5_error_iff_listing_failure.1 (Except.ok [expiredOpen])
        (fun _ => some "down") defaultAuctionInterval 0 [expiredOpen] []
        sampleOpen).mp h)
      (by rintro ⟨e, he⟩; simp at he)⟩

/-- C6: the close operation is idempotent. For an auction present in the
collection, closing it twice (both `UpdateOne` round trips succeeding)
leaves the same collection as closing it once, the second call returns no
error, and the stored status is Completed after both calls. -/
theorem c6_close_auction_idempotent :
    ∀ (store : List Auction) (a : Auction), statusOf store a.id ≠ none →
      ((closeAuction none ((closeAuction none store a).1) a).1
          = (closeAuction none store a).1 ∧
       (closeAuction none ((closeAuction none store a).1) a).2.2 = none ∧
       statusOf ((closeAuction none ((closeAuction none store a).1) a).1) a.id
          = some AuctionStatus.Completed) := by
  intro store a h
  have hidem := updateFirst_idem store a.id AuctionStatus.Completed
  refine ⟨?_, rfl, ?_⟩
  · show updateFirst (updateFirst store a.id AuctionStatus.Completed) a.id
        AuctionStatus.Completed = updateFirst store a.id AuctionStatus.Completed
    exact hidem
  · show statusOf (updateFirst (updateFirst store a.id AuctionStatus.Completed)
        a.id AuctionStatus.Completed) a.id = some AuctionStatus.Completed
    rw [hidem]
    exact statusOf_updateFirst_self store a.id AuctionStatus.Completed h

/-- Witness for C6 on a one-auction collection. -/
theorem c6_close_auction_idempotent_witness :
    (closeAuction none ((closeAuction none [expiredOpen] expiredOpen).1)
        expiredOpen).1 = (closeAuction none [expiredOpen] expiredOpen).1 ∧
    (closeAuction none ((closeAuction none [expiredOpen] expiredOpen).1)
        expiredOpen).2.2 = none ∧
    statusOf ((closeAuction none
        ((closeAuction none [expiredOpen] expiredOpen).1) expiredOpen).1)
        expiredOpen.id = some AuctionStatus.Completed :=
  c6_close_auction_idempotent [expiredOpen] expiredOpen (by decide)

/-- C7: for every environment value of `AUCTION_INTERVAL`, if it parses
under the duration grammar the parsed duration is returned with no
warning; if it is malformed or absent the fixed 5-minute default is
returned together with the warning log line. The function is total — it
never returns an error or aborts. -/
theorem c7_interval_fallback :
    ∀ (parseDuration : String → Option Int) (env : String),
      (∀ d : Int, parseDuration env = some d →
        getAuctionInterval parseDuration env = (d, [])) ∧
      (parseDuration env = none →
        getAuctionInterval parseDuration env
          = (defaultAuctionInterval, [intervalWarning])) := by
  intro parseDuration env
  constructor
  · intro d h
    simp [getAuctionInterval, h]
  · intro h
    simp [getAuctionInterval, h]

/-- Witness for C7 at an absent variable (Go's `os.Getenv` yields `""`,
which the duration grammar rejects) and at a parsable `"5m"`. -/
theorem c7_interval_fallback_witness :
    getAuctionInterval (fun s => if s = "5m" then some 300000000000 else none)
        "" = (defaultAuctionInterval, [intervalWarning]) ∧
    getAuctionInterval (fun s => if s = "5m" then some 300000000000 else none)
        "5m" = (300000000000, []) :=
  ⟨(c7_interval_fallback (fun s => if s = "5m" then some 300000000000 else none)
      "").2 (by decide),
   (c7_interval_fallback (fun s => if s = "5m" then some 300000000000 else none)
      "5m").1 300000000000 (by decide)⟩

/-- C8: the remaining-time computation returns
`(created_at + configured_interval) - now`; the result may be negative or
zero (being a function of its arguments, it is pure and deterministic). -/
theorem c8_remaining_time_formula :
    (∀ (interval now : Int) (a : Auction),
      calculateAuctionEndTime interval now a = a.timestamp + interval - now) ∧
    (∃ (interval now : Int) (a : Auction),
      calculateAuctionEndTime interval now a < 0) ∧
    (∃ (interval now : Int) (a : Auction),
      calculateAuctionEndTime interval now a = 0) := by
  refine ⟨fun interval now a => rfl, ⟨0, 1, sampleOpen, by decide⟩,
    ⟨0, 0, sampleOpen, by decide⟩⟩

/-- C9: the status update is a conditional update with no insert-if-absent
fallback (`SetUpsert(false)`): updating an id absent from the collection
matches nothing, leaves the collection unchanged (so inserts nothing), and
returns no error. -/
theorem c9_update_missing_id_noop :
    ∀ (store : List Auction) (a : Auction), statusOf store a.id = none →
      ((closeAuction none store a).1 = store ∧
       (closeAuction none store a).2.2 = none) := by
  intro store a h
  exact ⟨updateFirst_missing store a.id AuctionStatus.Completed h, rfl⟩

/-- Witness for C9 on a collection not containing the auction's id. -/
theorem c9_update_missing_id_noop_witness :
    (closeAuction none [expiredOpen] sampleOpen).1 = [expiredOpen] ∧
    (closeAuction none [expiredOpen] sampleOpen).2.2 = none :=
  c9_update_missing_id_noop [expiredOpen] sampleOpen (by decide)

/-- C10: when the timer fires and the close call fails, the deferred task
still removes the registry entry (line 116 runs unconditionally): the
collection is untouched (the auction stays Active/Open), its id is absent
from the registry afterwards, and a later scheduling pass that lists it
with remaining time ≤ 0 closes it immediately (status becomes Completed),
so it is never permanently stuck. -/
theorem c10_fire_removes_entry_unconditionally :
    ∀ (e : GoError) (store : List Auction) (registry : List String)
      (a : Auction),
      statusOf store a.id = some AuctionStatus.Active →
      ((deferredTask (some e) RaceOutcome.fired store registry a).1 = store ∧
       a.id ∉ (deferredTask (some e) RaceOutcome.fired store registry a).2.1 ∧
       statusOf (deferredTask (some e) RaceOutcome.fired store registry a).1
          a.id = some AuctionStatus.Active ∧
       (∀ interval now : Int, calculateAuctionEndTime interval now a ≤ 0 →
         statusOf
           (RunResult.state
             (autoClose (Except.ok [a]) (fun _ => none) interval now true
               (deferredTask (some e) RaceOutcome.fired store registry a).1
               (deferredTask (some e) RaceOutcome.fired store registry
                 a).2.1)).store
           a.id = some AuctionStatus.Completed)) := by
  intro e store registry a hst
  refine ⟨rfl, mapDelete_not_mem registry a.id, hst, ?_⟩
  intro interval now hrem
  show statusOf
      (RunResult.state
        (autoClose (Except.ok [a]) (fun _ => none) interval now true store
          (mapDelete registry a.id))).store a.id = some AuctionStatus.Completed
  simp only [autoClose, autoCloseLoop, if_pos hrem, closeAuction,
    RunResult.state]
  exact statusOf_updateFirst_self store a.id AuctionStatus.Completed
    (by rw [hst]; exact fun hc => Option.noConfusion hc)

/-- Witness for C10: a failed fire for `expiredOpen` on a one-auction
collection, followed by a pass at `now = 0` with the default interval. -/
theorem c10_fire_removes_entry_unconditionally_witness :
    (deferredTask (some "down") RaceOutcome.fired [expiredOpen] ["b1"]
        expiredOpen).1 = [expiredOpen] ∧
    "b1" ∉ (deferredTask (some "down") RaceOutcome.fired [expiredOpen]
        ["b1"] expiredOpen).2.1 ∧
    statusOf (deferredTask (some "down") RaceOutcome.fired [expiredOpen]
        ["b1"] expiredOpen).1 "b1" = some AuctionStatus.Active ∧
    statusOf
      (RunResult.state
        (autoClose (Except.ok [expiredOpen]) (fun _ => none)
          defaultAuctionInterval 0 true
          (deferredTask (some "down") RaceOutcome.fired [expiredOpen] ["b1"]
            expiredOpen).1
          (deferredTask (some "down") RaceOutcome.fired [expiredOpen] ["b1"]
            expiredOpen).2.1)).store "b1" = some AuctionStatus.Completed := by
  have h := c10_fire_removes_entry_unconditionally "down" [expiredOpen]
    ["b1"] expiredOpen (by decide)
  exact ⟨h.1, h.2.1, h.2.2.1, h.2.2.2 defaultAuctionInterval 0 (by decide)⟩

end AuctionGo
